import Mathlib

/-!
Verification of Business-Wizard/dev-workspace-setup.

Shallow embedding of the repository's three source files:
  * src/tests/templates.py  (max-with-validation, key-value store variants)
  * src/tests/conftest.py   (pytest session hook)
  * src/tasks.py            (update_vscode automation task)
-/

/-! ## Embedding of Python values

The max-with-validation code distinguishes elements by `isinstance(x, int)`.
In Python, `bool` is a subclass of `int`, so booleans pass that check; the
demonstration code only ever mixes integers with strings, so the value
universe here is integers, booleans and strings. -/

inductive PyVal where
  | int (n : Int)
  | bool (b : Bool)
  | str (s : String)
  deriving DecidableEq, Repr

/-- Embedding of Python `isinstance(x, int)`: true for `int` and for `bool`
(a subclass of `int` in Python), false for `str`. -/
def isinstance_int : PyVal → Bool
  | .int _ => true
  | .bool _ => true
  | .str _ => false

/-- True exactly for values of Python type `int` proper (not `bool`). -/
def PyVal.isInt : PyVal → Bool
  | .int _ => true
  | _ => false

/-- True exactly for values of Python type `bool`. -/
def PyVal.isBool : PyVal → Bool
  | .bool _ => true
  | _ => false

/-- Numeric value used by Python comparison on numbers: `True == 1`,
`False == 0`.  Only applied to values passing `isinstance_int`. -/
def pyIntVal : PyVal → Int
  | .int n => n
  | .bool b => if b then 1 else 0
  | .str _ => 0

/-- One step of Python `max` over an iterable: keep the current maximum,
replace it when the next item is strictly greater (ties keep the first). -/
def pyMaxStep (acc v : PyVal) : PyVal :=
  if pyIntVal acc < pyIntVal v then v else acc

/-- Embedding of Python `max(sequence)` on a sequence of numbers:
`none` models the `ValueError` raised on an empty sequence. -/
def pyMax : List PyVal → Option PyVal
  | [] => none
  | x :: xs => some (xs.foldl pyMaxStep x)

/-- Result of running a piece of Python code that may raise.
`typeError` carries the distinct offending values interpolated into the
message (a Python set: each value once, iteration order unspecified);
`valueError` models `max()` on an empty sequence. -/
inductive PyResult (α : Type) where
  | ok (a : α)
  | typeError (offending : List PyVal)
  | valueError
  deriving DecidableEq, Repr

/-- Embedding of the set comprehension
`{x for x in sequence_of_numbers if not isinstance(x, int)}`
in `function_under_test` (src/tests/templates.py lines 58-62):
the distinct non-`int` elements of the sequence. -/
def non_numbers_in_sequence (seq : List PyVal) : List PyVal :=
  (seq.filter (fun v => !(isinstance_int v))).dedup

/-- Embedding of `function_under_test` (src/tests/templates.py lines 56-65):
if any element fails `isinstance(x, int)`, raise `TypeError` naming the set
of offending values; otherwise return `max(sequence)`. -/
def function_under_test (seq : List PyVal) : PyResult PyVal :=
  if non_numbers_in_sequence seq ≠ [] then
    .typeError (non_numbers_in_sequence seq)
  else
    match pyMax seq with
    | none => .valueError
    | some m => .ok m

/-- Embedding of `ClassUnderTest` (src/tests/templates.py lines 121-138):
holds the sequence accepted by its constructor. -/
structure ClassUnderTest where
  numbers_sequence : List PyVal
  deriving DecidableEq, Repr

/-- Embedding of `ClassUnderTest._construction_guard_clause`
(src/tests/templates.py lines 127-135): `some offending` models the
`TypeError` raised when non-`int` elements are present. -/
def construction_guard_clause (seq : List PyVal) : Option (List PyVal) :=
  if non_numbers_in_sequence seq ≠ [] then some (non_numbers_in_sequence seq)
  else none

/-- Embedding of `ClassUnderTest.__init__`: run the guard clause, then store
the sequence. -/
def ClassUnderTest.make (seq : List PyVal) : PyResult ClassUnderTest :=
  match construction_guard_clause seq with
  | some offending => .typeError offending
  | none => .ok ⟨seq⟩

/-- Embedding of `ClassUnderTest.method_under_test`
(src/tests/templates.py lines 137-138): `max` of the stored sequence. -/
def ClassUnderTest.method_under_test (c : ClassUnderTest) : PyResult PyVal :=
  match pyMax c.numbers_sequence with
  | none => .valueError
  | some m => .ok m

/-! ### Lemmas about `pyMax` -/

theorem le_pyIntVal_pyMaxStep_left (x y : PyVal) :
    pyIntVal x ≤ pyIntVal (pyMaxStep x y) := by
  unfold pyMaxStep
  split
  · omega
  · exact le_refl _

theorem le_pyIntVal_pyMaxStep_right (x y : PyVal) :
    pyIntVal y ≤ pyIntVal (pyMaxStep x y) := by
  unfold pyMaxStep
  split
  · exact le_refl _
  · omega

theorem le_pyIntVal_foldl_pyMaxStep (xs : List PyVal) (x : PyVal) :
    pyIntVal x ≤ pyIntVal (xs.foldl pyMaxStep x) := by
  induction xs generalizing x with
  | nil => exact le_refl _
  | cons y ys ih =>
    simp only [List.foldl_cons]
    exact le_trans (le_pyIntVal_pyMaxStep_left x y) (ih (pyMaxStep x y))

theorem foldl_pyMaxStep_mem (xs : List PyVal) (x : PyVal) :
    xs.foldl pyMaxStep x = x ∨ xs.foldl pyMaxStep x ∈ xs := by
  induction xs generalizing x with
  | nil => exact Or.inl rfl
  | cons y ys ih =>
    simp only [List.foldl_cons]
    rcases ih (pyMaxStep x y) with h | h
    · rw [h]
      unfold pyMaxStep
      split
      · exact Or.inr (List.mem_cons_self y ys)
      · exact Or.inl rfl
    · exact Or.inr (List.mem_cons_of_mem y h)

theorem foldl_pyMaxStep_ge (xs : List PyVal) (x v : PyVal)
    (hv : v = x ∨ v ∈ xs) :
    pyIntVal v ≤ pyIntVal (xs.foldl pyMaxStep x) := by
  induction xs generalizing x with
  | nil =>
    rcases hv with h | h
    · subst h; exact le_refl _
    · cases h
  | cons y ys ih =>
    simp only [List.foldl_cons]
    rcases hv with h | h
    · subst h
      exact le_trans (le_pyIntVal_pyMaxStep_left v y)
        (le_pyIntVal_foldl_pyMaxStep ys (pyMaxStep v y))
    · rcases List.mem_cons.mp h with h2 | h2
      · subst h2
        exact le_trans (le_pyIntVal_pyMaxStep_right x v)
          (le_pyIntVal_foldl_pyMaxStep ys (pyMaxStep x v))
      · exact ih (pyMaxStep x y) (Or.inr h2)

/-- For a non-empty sequence, `pyMax` returns an element of the sequence that
dominates every element numerically. -/
theorem pyMax_spec (seq : List PyVal) (hne : seq ≠ []) :
    ∃ m, pyMax seq = some m ∧ m ∈ seq ∧
      ∀ v ∈ seq, pyIntVal v ≤ pyIntVal m := by
  cases seq with
  | nil => exact absurd rfl hne
  | cons x xs =>
    refine ⟨xs.foldl pyMaxStep x, rfl, ?_, ?_⟩
    · rcases foldl_pyMaxStep_mem xs x with h | h
      · rw [h]; exact List.mem_cons_self x xs
      · exact List.mem_cons_of_mem x h
    · intro v hv
      exact foldl_pyMaxStep_ge xs x v (List.mem_cons.mp hv)

/-! ### Lemmas about `function_under_test` -/

theorem non_numbers_mem (seq : List PyVal) (v : PyVal) :
    v ∈ non_numbers_in_sequence seq ↔
      v ∈ seq ∧ isinstance_int v = false := by
  unfold non_numbers_in_sequence
  rw [List.mem_dedup, List.mem_filter]
  simp

theorem non_numbers_nodup (seq : List PyVal) :
    (non_numbers_in_sequence seq).Nodup :=
  List.nodup_dedup _

theorem non_numbers_eq_nil_iff (seq : List PyVal) :
    non_numbers_in_sequence seq = [] ↔
      ∀ v ∈ seq, isinstance_int v = true := by
  constructor
  · intro h v hv
    by_contra hfalse
    have hmem : v ∈ non_numbers_in_sequence seq :=
      (non_numbers_mem seq v).mpr ⟨hv, by simpa using hfalse⟩
    rw [h] at hmem
    cases hmem
  · intro h
    by_contra hne
    obtain ⟨v, hv⟩ := List.exists_mem_of_ne_nil _ hne
    have := (non_numbers_mem seq v).mp hv
    rw [h v this.1] at this
    exact absurd this.2 (by simp)

theorem function_under_test_eq_typeError_iff (seq l : List PyVal) :
    function_under_test seq = .typeError l ↔
      non_numbers_in_sequence seq ≠ [] ∧
        l = non_numbers_in_sequence seq := by
  unfold function_under_test
  split
  · next h =>
    constructor
    · intro h2
      refine ⟨h, ?_⟩
      cases h2
      rfl
    · intro h2
      rw [h2.2]
  · next h =>
    rw [not_not] at h
    cases hm : pyMax seq <;> simp [hm, h]

theorem function_under_test_eq_ok (seq : List PyVal) (m : PyVal)
    (hvalid : non_numbers_in_sequence seq = []) (hm : pyMax seq = some m) :
    function_under_test seq = .ok m := by
  unfold function_under_test
  rw [if_neg (by rw [hvalid]; exact fun h => h rfl), hm]

theorem classUnderTest_make_ok (seq : List PyVal)
    (hvalid : non_numbers_in_sequence seq = []) :
    ClassUnderTest.make seq = .ok ⟨seq⟩ := by
  unfold ClassUnderTest.make construction_guard_clause
  rw [if_neg (by rw [hvalid]; exact fun h => h rfl)]

theorem method_under_test_eq_ok (seq : List PyVal) (m : PyVal)
    (hm : pyMax seq = some m) :
    ClassUnderTest.method_under_test ⟨seq⟩ = .ok m := by
  unfold ClassUnderTest.method_under_test
  rw [hm]

/-! ## Claim theorems for the max-with-validation operation -/

/-- C1: for every non-empty sequence whose elements are all integers,
`function_under_test` returns the true maximum element under the total order
on integers, and `ClassUnderTest` (constructor accepts the sequence,
`method_under_test` computes the max) agrees with it. -/
theorem C1_max_with_validation_returns_maximum (seq : List PyVal)
    (hne : seq ≠ []) (hall : ∀ v ∈ seq, v.isInt = true) :
    ∃ m, function_under_test seq = .ok m ∧ m ∈ seq ∧
      (∀ v ∈ seq, pyIntVal v ≤ pyIntVal m) ∧
      ClassUnderTest.make seq = .ok ⟨seq⟩ ∧
      ClassUnderTest.method_under_test ⟨seq⟩ = .ok m := by
  have hvalid : non_numbers_in_sequence seq = [] := by
    rw [non_numbers_eq_nil_iff]
    intro v hv
    have := hall v hv
    cases v <;> simp_all [PyVal.isInt, isinstance_int]
  obtain ⟨m, hm, hmem, hle⟩ := pyMax_spec seq hne
  exact ⟨m, function_under_test_eq_ok seq m hvalid hm, hmem, hle,
    classUnderTest_make_ok seq hvalid, method_under_test_eq_ok seq m hm⟩

/-- Witness for C1 on the concrete sequence `[1, 3, 2]`. -/
theorem C1_witness :
    ([PyVal.int 1, PyVal.int 3, PyVal.int 2] ≠ []) ∧
    (∀ v ∈ [PyVal.int 1, PyVal.int 3, PyVal.int 2], v.isInt = true) ∧
    (∃ m, function_under_test [PyVal.int 1, PyVal.int 3, PyVal.int 2] = .ok m ∧
      m ∈ [PyVal.int 1, PyVal.int 3, PyVal.int 2] ∧
      (∀ v ∈ [PyVal.int 1, PyVal.int 3, PyVal.int 2],
        pyIntVal v ≤ pyIntVal m) ∧
      ClassUnderTest.make [PyVal.int 1, PyVal.int 3, PyVal.int 2] =
        .ok ⟨[PyVal.int 1, PyVal.int 3, PyVal.int 2]⟩ ∧
      ClassUnderTest.method_under_test
        ⟨[PyVal.int 1, PyVal.int 3, PyVal.int 2]⟩ = .ok m) :=
  ⟨by decide, by decide,
    C1_max_with_validation_returns_maximum _ (by decide) (by decide)⟩

/-- C2: `function_under_test` yields a `TypeError` iff the sequence contains
a non-integer element (in the `isinstance(x, int)` sense), and the error
names exactly the set of offending values, each value once regardless of
duplicates. -/
theorem C2_typeError_iff_non_integer (seq : List PyVal) :
    ((∃ l, function_under_test seq = .typeError l) ↔
      ∃ v ∈ seq, isinstance_int v = false) ∧
    (∀ l, function_under_test seq = .typeError l →
      (∀ v, v ∈ l ↔ (v ∈ seq ∧ isinstance_int v = false)) ∧ l.Nodup) := by
  constructor
  · constructor
    · rintro ⟨l, hl⟩
      obtain ⟨hne, -⟩ := (function_under_test_eq_typeError_iff seq l).mp hl
      obtain ⟨v, hv⟩ := List.exists_mem_of_ne_nil _ hne
      obtain ⟨hvseq, hvbad⟩ := (non_numbers_mem seq v).mp hv
      exact ⟨v, hvseq, hvbad⟩
    · rintro ⟨v, hvseq, hvbad⟩
      have hvmem : v ∈ non_numbers_in_sequence seq :=
        (non_numbers_mem seq v).mpr ⟨hvseq, hvbad⟩
      refine ⟨non_numbers_in_sequence seq, ?_⟩
      exact (function_under_test_eq_typeError_iff seq _).mpr
        ⟨List.ne_nil_of_mem hvmem, rfl⟩
  · intro l hl
    obtain ⟨-, hleq⟩ := (function_under_test_eq_typeError_iff seq l).mp hl
    subst hleq
    exact ⟨fun v => non_numbers_mem seq v, non_numbers_nodup seq⟩

/-- Witness for C2 on the concrete sequence `[1, "x", "x"]`: a `TypeError`
listing `"x"` once. -/
theorem C2_witness :
    ∃ l, function_under_test [PyVal.int 1, PyVal.str "x", PyVal.str "x"] =
      .typeError l ∧ PyVal.str "x" ∈ l ∧ l.Nodup := by
  obtain ⟨l, hl⟩ :=
    (C2_typeError_iff_non_integer
      [PyVal.int 1, PyVal.str "x", PyVal.str "x"]).1.mpr
      ⟨PyVal.str "x", by decide, by decide⟩
  obtain ⟨hmem, hnodup⟩ :=
    (C2_typeError_iff_non_integer
      [PyVal.int 1, PyVal.str "x", PyVal.str "x"]).2 l hl
  exact ⟨l, hl, (hmem (PyVal.str "x")).mpr ⟨by decide, by decide⟩, hnodup⟩

/-- C10: the `isinstance(x, int)` check accepts booleans (a subclass of
`int` in Python): sequences mixing booleans and integers never raise the
validation `TypeError`, booleans participate in the maximum as 0 and 1,
`function_under_test([True, False])` returns `True`, and `True` is never
among the offending values of a `TypeError`. -/
theorem C10_booleans_accepted_as_integers (seq : List PyVal)
    (hmix : ∀ v ∈ seq, (v.isInt || v.isBool) = true) :
    (∀ l, function_under_test seq ≠ .typeError l) ∧
    (seq ≠ [] → ∃ m, function_under_test seq = .ok m ∧ m ∈ seq ∧
      ∀ v ∈ seq, pyIntVal v ≤ pyIntVal m) ∧
    function_under_test [PyVal.bool true, PyVal.bool false] =
      .ok (PyVal.bool true) ∧
    pyIntVal (PyVal.bool true) = 1 ∧ pyIntVal (PyVal.bool false) = 0 ∧
    (∀ (s l : List PyVal), function_under_test s = .typeError l →
      PyVal.bool true ∉ l) := by
  have hvalid : non_numbers_in_sequence seq = [] := by
    rw [non_numbers_eq_nil_iff]
    intro v hv
    have := hmix v hv
    cases v <;> simp_all [PyVal.isInt, PyVal.isBool, isinstance_int]
  refine ⟨?_, ?_, by decide, by decide, by decide, ?_⟩
  · intro l hl
    exact ((function_under_test_eq_typeError_iff seq l).mp hl).1 hvalid
  · intro hne
    obtain ⟨m, hm, hmem, hle⟩ := pyMax_spec seq hne
    exact ⟨m, function_under_test_eq_ok seq m hvalid hm, hmem, hle⟩
  · intro s l hl htrue
    obtain ⟨-, hleq⟩ := (function_under_test_eq_typeError_iff s l).mp hl
    subst hleq
    have := (non_numbers_mem s (PyVal.bool true)).mp htrue
    simp [isinstance_int] at this

/-- Witness for C10 on the concrete sequence `[True, 0]`. -/
theorem C10_witness :
    (∀ v ∈ [PyVal.bool true, PyVal.int 0], (v.isInt || v.isBool) = true) ∧
    (∀ l, function_under_test [PyVal.bool true, PyVal.int 0] ≠
      .typeError l) ∧
    function_under_test [PyVal.bool true, PyVal.bool false] =
      .ok (PyVal.bool true) :=
  ⟨by decide,
    (C10_booleans_accepted_as_integers
      [PyVal.bool true, PyVal.int 0] (by decide)).1,
    (C10_booleans_accepted_as_integers
      [PyVal.bool true, PyVal.int 0] (by decide)).2.2.1⟩

/-! ## Embedding of the key-value store variants

All stateful variants are backed by a Python `dict[str, str]`, embedded as
an insertion-ordered association list: assignment `d[k] = v` updates the
value in place when the key is present and appends otherwise; subscript
`d[k]` raises `KeyError` when the key is absent. -/

/-- Embedding of Python `d[k] = v` on a `dict` as association list. -/
def dictInsert : List (String × String) → String → String →
    List (String × String)
  | [], k, v => [(k, v)]
  | (k0, v0) :: rest, k, v =>
    if k0 = k then (k0, v) :: rest else (k0, v0) :: dictInsert rest k v

/-- Embedding of Python `d[k]` on a `dict`: `none` models `KeyError`. -/
def dictLookup : List (String × String) → String → Option String
  | [], _ => none
  | (k0, v0) :: rest, k => if k0 = k then some v0 else dictLookup rest k

/-- Result of a `read` call on a store variant: `value` carries the Python
return value (`none` for Python `None`, as returned by the dummy variant);
`keyError` models the `KeyError` raised on an absent key. -/
inductive ReadResult where
  | value (s : Option String)
  | keyError (k : String)
  deriving DecidableEq, Repr

/-- Whether a `read` outcome is a lookup error. -/
def ReadResult.isKeyError : ReadResult → Bool
  | .keyError _ => true
  | .value _ => false

/-- Embedding of `CloudRepository` (src/tests/templates.py lines 453-473).
The `_cloud_operation` latency (`time.sleep(10)`) has no effect on the data
store and is not represented. -/
structure CloudRepository where
  data_store : List (String × String)
  deriving DecidableEq, Repr

def CloudRepository.empty : CloudRepository := ⟨[]⟩

def CloudRepository.create (r : CloudRepository) (k v : String) :
    CloudRepository :=
  { r with data_store := dictInsert r.data_store k v }

def CloudRepository.read (r : CloudRepository) (k : String) : ReadResult :=
  match dictLookup r.data_store k with
  | some v => .value (some v)
  | none => .keyError k

/-- Embedding of `FakeRepo` (src/tests/templates.py lines 545-568):
the same mapping-backed implementation, without the latency call. -/
structure FakeRepo where
  data : List (String × String)
  deriving DecidableEq, Repr

def FakeRepo.empty : FakeRepo := ⟨[]⟩

def FakeRepo.create (r : FakeRepo) (k v : String) : FakeRepo :=
  { r with data := dictInsert r.data k v }

def FakeRepo.read (r : FakeRepo) (k : String) : ReadResult :=
  match dictLookup r.data k with
  | some v => .value (some v)
  | none => .keyError k

/-- Embedding of `DummyRepo` (src/tests/templates.py lines 479-489):
both methods are `...` bodies, returning Python `None`. -/
structure DummyRepo where
  deriving DecidableEq, Repr

def DummyRepo.create (s : DummyRepo) (_k _v : String) : DummyRepo := s

def DummyRepo.read (_s : DummyRepo) (_k : String) : ReadResult := .value none

/-- Embedding of `StubRepo` (src/tests/templates.py lines 598-609):
`create` is a no-op, `read` returns the fixed constant `"2"`. -/
structure StubRepo where
  deriving DecidableEq, Repr

def StubRepo.create (s : StubRepo) (_k _v : String) : StubRepo := s

def StubRepo.read (_s : StubRepo) (_k : String) : ReadResult :=
  .value (some "2")

/-- Embedding of `MockRepo` (src/tests/templates.py lines 634-657):
records every call (count and arguments) for both operations. -/
structure MockRepo where
  create_call_count : Nat
  create_call_args : List (String × String)
  read_call_count : Nat
  read_call_args : List String
  deriving DecidableEq, Repr

/-- Embedding of `MockRepo.__init__`: all counters zero, all records empty. -/
def MockRepo.empty : MockRepo := ⟨0, [], 0, []⟩

def MockRepo.create (m : MockRepo) (k v : String) : MockRepo :=
  { m with
    create_call_count := m.create_call_count + 1,
    create_call_args := m.create_call_args ++ [(k, v)] }

/-- `MockRepo.read` records the call and returns the static datum `"2"`. -/
def MockRepo.read (m : MockRepo) (k : String) : MockRepo × String :=
  ({ m with
      read_call_count := m.read_call_count + 1,
      read_call_args := m.read_call_args ++ [k] }, "2")

/-- A call against the store capability (`AbstractRepository`,
src/tests/templates.py lines 441-450). -/
inductive RepoOp where
  | create (k v : String)
  | read (k : String)
  deriving DecidableEq, Repr

/-- Apply a sequence of `create` calls to a `CloudRepository`. -/
def CloudRepository.applyCreates : CloudRepository →
    List (String × String) → CloudRepository
  | r, [] => r
  | r, (k, v) :: rest => CloudRepository.applyCreates (r.create k v) rest

/-- Apply a sequence of `create` calls to a `FakeRepo`. -/
def FakeRepo.applyCreates : FakeRepo → List (String × String) → FakeRepo
  | r, [] => r
  | r, (k, v) :: rest => FakeRepo.applyCreates (r.create k v) rest

/-- Run a sequence of operations against a `CloudRepository`, collecting the
result of each `read`; a `KeyError` propagates as a Python exception would,
aborting the rest of the sequence. -/
def CloudRepository.runOps : CloudRepository → List RepoOp →
    List ReadResult
  | _, [] => []
  | r, .create k v :: rest => CloudRepository.runOps (r.create k v) rest
  | r, .read k :: rest =>
    match r.read k with
    | .value s => .value s :: CloudRepository.runOps r rest
    | .keyError e => [.keyError e]

/-- Run a sequence of operations against a `FakeRepo`, collecting the
result of each `read`; a `KeyError` aborts the rest of the sequence. -/
def FakeRepo.runOps : FakeRepo → List RepoOp → List ReadResult
  | _, [] => []
  | r, .create k v :: rest => FakeRepo.runOps (r.create k v) rest
  | r, .read k :: rest =>
    match r.read k with
    | .value s => .value s :: FakeRepo.runOps r rest
    | .keyError e => [.keyError e]

/-- Apply a sequence of operations to a `MockRepo`, keeping the final
recorded state (`read` always succeeds on the mock). -/
def MockRepo.applyOps : MockRepo → List RepoOp → MockRepo
  | m, [] => m
  | m, .create k v :: rest => MockRepo.applyOps (m.create k v) rest
  | m, .read k :: rest => MockRepo.applyOps (m.read k).1 rest

/-- The `(key, value)` arguments of the `create` calls in a sequence,
in call order. -/
def createdArgs (ops : List RepoOp) : List (String × String) :=
  ops.filterMap fun op =>
    match op with
    | .create k v => some (k, v)
    | .read _ => none

/-- The keys passed to `read` in a sequence, in call order. -/
def readKeys (ops : List RepoOp) : List String :=
  ops.filterMap fun op =>
    match op with
    | .create _ _ => none
    | .read k => some k

/-- The value of the last `create` for a given key in a sequence of
`create` calls, if any. -/
def lastCreatedValue : List (String × String) → String → Option String
  | [], _ => none
  | (k0, v0) :: rest, k =>
    match lastCreatedValue rest k with
    | some v => some v
    | none => if k0 = k then some v0 else none

/-! ### Dictionary lemmas -/

theorem dictLookup_dictInsert (d : List (String × String)) (k v k2 : String) :
    dictLookup (dictInsert d k v) k2 =
      if k = k2 then some v else dictLookup d k2 := by
  induction d with
  | nil => rfl
  | cons p rest ih =>
    obtain ⟨k0, v0⟩ := p
    by_cases h0 : k0 = k
    · subst h0
      simp [dictInsert, dictLookup]
      by_cases h2 : k0 = k2 <;> simp [h2]
    · simp [dictInsert, dictLookup, h0]
      by_cases h2 : k0 = k2
      · subst h2
        have : ¬ k = k0 := fun h => h0 h.symm
        simp [dictLookup, this]
      · simp [dictLookup, h2, ih]

theorem cloud_applyCreates_lookup (creates : List (String × String)) :
    ∀ (d : List (String × String)) (k : String),
      dictLookup (CloudRepository.applyCreates ⟨d⟩ creates).data_store k =
        match lastCreatedValue creates k with
        | some v => some v
        | none => dictLookup d k := by
  induction creates with
  | nil => intro d k; rfl
  | cons p rest ih =>
    intro d k
    obtain ⟨k0, v0⟩ := p
    have hstep : CloudRepository.applyCreates ⟨d⟩ ((k0, v0) :: rest) =
        CloudRepository.applyCreates ⟨dictInsert d k0 v0⟩ rest := rfl
    rw [hstep, ih]
    cases h : lastCreatedValue rest k with
    | some v => simp [lastCreatedValue, h]
    | none =>
      simp only [lastCreatedValue, h, dictLookup_dictInsert]
      by_cases h0 : k0 = k <;> simp [h0]

theorem fake_applyCreates_lookup (creates : List (String × String)) :
    ∀ (d : List (String × String)) (k : String),
      dictLookup (FakeRepo.applyCreates ⟨d⟩ creates).data k =
        match lastCreatedValue creates k with
        | some v => some v
        | none => dictLookup d k := by
  induction creates with
  | nil => intro d k; rfl
  | cons p rest ih =>
    intro d k
    obtain ⟨k0, v0⟩ := p
    have hstep : FakeRepo.applyCreates ⟨d⟩ ((k0, v0) :: rest) =
        FakeRepo.applyCreates ⟨dictInsert d k0 v0⟩ rest := rfl
    rw [hstep, ih]
    cases h : lastCreatedValue rest k with
    | some v => simp [lastCreatedValue, h]
    | none =>
      simp only [lastCreatedValue, h, dictLookup_dictInsert]
      by_cases h0 : k0 = k <;> simp [h0]

theorem lastCreatedValue_eq_none_iff (creates : List (String × String))
    (k : String) :
    lastCreatedValue creates k = none ↔ k ∉ creates.map Prod.fst := by
  induction creates with
  | nil => simp [lastCreatedValue]
  | cons p rest ih =>
    obtain ⟨k0, v0⟩ := p
    simp only [lastCreatedValue, List.map_cons, List.mem_cons]
    cases h : lastCreatedValue rest k with
    | some v =>
      have hk : k ∈ rest.map Prod.fst := by
        by_contra hk
        rw [← ih] at hk
        rw [h] at hk
        cases hk
      simp [hk]
    | none =>
      rw [h] at ih
      by_cases h0 : k0 = k
      · subst h0
        simp
      · have : ¬ k = k0 := fun h2 => h0 h2.symm
        simp [h0, this, ih.mp rfl]

/-! ### Read-after-create lemmas -/

theorem cloud_read_after_creates (creates : List (String × String))
    (k v : String) (h : lastCreatedValue creates k = some v) :
    (CloudRepository.empty.applyCreates creates).read k =
      .value (some v) := by
  have hl := cloud_applyCreates_lookup creates [] k
  simp only [h] at hl
  show CloudRepository.read (CloudRepository.applyCreates ⟨[]⟩ creates) k =
    ReadResult.value (some v)
  unfold CloudRepository.read
  rw [hl]

theorem fake_read_after_creates (creates : List (String × String))
    (k v : String) (h : lastCreatedValue creates k = some v) :
    (FakeRepo.empty.applyCreates creates).read k = .value (some v) := by
  have hl := fake_applyCreates_lookup creates [] k
  simp only [h] at hl
  show FakeRepo.read (FakeRepo.applyCreates ⟨[]⟩ creates) k =
    ReadResult.value (some v)
  unfold FakeRepo.read
  rw [hl]

theorem cloud_read_keyError_iff (creates : List (String × String))
    (k : String) :
    ((CloudRepository.empty.applyCreates creates).read k).isKeyError =
      true ↔ lastCreatedValue creates k = none := by
  have hl := cloud_applyCreates_lookup creates [] k
  show (CloudRepository.read
    (CloudRepository.applyCreates ⟨[]⟩ creates) k).isKeyError = true ↔ _
  unfold CloudRepository.read
  cases hlast : lastCreatedValue creates k with
  | some v =>
    simp only [hlast] at hl
    rw [hl]
    simp [ReadResult.isKeyError]
  | none =>
    simp only [hlast, dictLookup] at hl
    rw [hl]
    simp [ReadResult.isKeyError]

theorem fake_read_keyError_iff (creates : List (String × String))
    (k : String) :
    ((FakeRepo.empty.applyCreates creates).read k).isKeyError = true ↔
      lastCreatedValue creates k = none := by
  have hl := fake_applyCreates_lookup creates [] k
  show (FakeRepo.read
    (FakeRepo.applyCreates ⟨[]⟩ creates) k).isKeyError = true ↔ _
  unfold FakeRepo.read
  cases hlast : lastCreatedValue creates k with
  | some v =>
    simp only [hlast] at hl
    rw [hl]
    simp [ReadResult.isKeyError]
  | none =>
    simp only [hlast, dictLookup] at hl
    rw [hl]
    simp [ReadResult.isKeyError]

/-! ## Claim theorems for the store variants -/

/-- C3: for the production-like and fake stores, after any sequence of
`create` calls whose last `create` for key `k` is `create(k, v)` (repeats
included), `read(k)` returns `v`. -/
theorem C3_write_then_read_consistency (creates : List (String × String))
    (k v : String) (h : lastCreatedValue creates k = some v) :
    (CloudRepository.empty.applyCreates creates).read k =
      .value (some v) ∧
    (FakeRepo.empty.applyCreates creates).read k = .value (some v) :=
  ⟨cloud_read_after_creates creates k v h,
    fake_read_after_creates creates k v h⟩

/-- Witness for C3: `create("a","1")` then `create("a","2")` twice leaves
`read("a")` returning `"2"` on both stores. -/
theorem C3_witness :
    lastCreatedValue [("a", "1"), ("a", "2"), ("a", "2")] "a" = some "2" ∧
    ((CloudRepository.empty.applyCreates
        [("a", "1"), ("a", "2"), ("a", "2")]).read "a" =
      .value (some "2") ∧
    (FakeRepo.empty.applyCreates
        [("a", "1"), ("a", "2"), ("a", "2")]).read "a" =
      .value (some "2")) :=
  ⟨by decide,
    C3_write_then_read_consistency
      [("a", "1"), ("a", "2"), ("a", "2")] "a" "2" (by decide)⟩

theorem cloud_fake_runOps_eq (ops : List RepoOp) :
    ∀ d, CloudRepository.runOps ⟨d⟩ ops = FakeRepo.runOps ⟨d⟩ ops := by
  induction ops with
  | nil => intro d; rfl
  | cons op rest ih =>
    intro d
    cases op with
    | create k v =>
      show CloudRepository.runOps ⟨dictInsert d k v⟩ rest =
        FakeRepo.runOps ⟨dictInsert d k v⟩ rest
      exact ih _
    | read k =>
      simp only [CloudRepository.runOps, FakeRepo.runOps,
        CloudRepository.read, FakeRepo.read]
      cases h : dictLookup d k <;> simp [h, ih d]

/-- C4: the fake store is behaviorally equivalent to the production-like
store minus the latency: any sequence of create/read operations applied to
both from empty stores produces the same result for every read and fails in
the same cases. -/
theorem C4_fake_equivalent_to_cloud (ops : List RepoOp) :
    CloudRepository.empty.runOps ops = FakeRepo.empty.runOps ops :=
  cloud_fake_runOps_eq ops []

/-- Embedding of Python `int(value)` on the decimal strings the tests use:
the parsed value for a non-empty all-digit string; `none` models the
`ValueError` raised on anything else. -/
def pyInt (s : String) : Option Int :=
  if s.data ≠ [] ∧ s.data.all Char.isDigit then
    some (s.data.foldl
      (fun n c => n * 10 + ((c.toNat - Char.toNat '0' : Nat) : Int)) 0)
  else none

/-- Embedding of `read_parse_sum_data` (src/tests/templates.py lines
617-620), generic in the `read` operation of the repository it is handed:
read each key, parse each value with `int`, and sum.  `none` models an
uncaught exception (lookup error, `None` result, or parse failure). -/
def read_parse_sum_data (read : String → ReadResult) :
    List String → Option Int
  | [] => some 0
  | k :: rest =>
    match read k with
    | .value (some s) =>
      match pyInt s, read_parse_sum_data read rest with
      | some n, some total => some (n + total)
      | _, _ => none
    | _ => none

/-- C5: the stub store returns the fixed constant `"2"` for every key and
never fails, `create` is a no-op changing nothing observable, and
`read_parse_sum_data(stub_repo, ["1", "2", "3"])` returns 6. -/
theorem C5_stub_returns_fixed_constant :
    (∀ (s : StubRepo) (k : String), s.read k = .value (some "2")) ∧
    (∀ (s : StubRepo) (k v : String), s.create k v = s) ∧
    read_parse_sum_data (StubRepo.read ⟨⟩) ["1", "2", "3"] = some 6 :=
  ⟨fun _ _ => rfl, fun _ _ _ => rfl, by decide⟩

theorem mock_applyOps_fields (ops : List RepoOp) :
    ∀ m : MockRepo,
      (MockRepo.applyOps m ops).create_call_count =
        m.create_call_count + (createdArgs ops).length ∧
      (MockRepo.applyOps m ops).create_call_args =
        m.create_call_args ++ createdArgs ops ∧
      (MockRepo.applyOps m ops).read_call_count =
        m.read_call_count + (readKeys ops).length ∧
      (MockRepo.applyOps m ops).read_call_args =
        m.read_call_args ++ readKeys ops := by
  induction ops with
  | nil => intro m; simp [MockRepo.applyOps, createdArgs, readKeys]
  | cons op rest ih =>
    intro m
    cases op with
    | create k v =>
      obtain ⟨h1, h2, h3, h4⟩ := ih (m.create k v)
      refine ⟨?_, ?_, ?_, ?_⟩
      · show (MockRepo.applyOps (m.create k v) rest).create_call_count = _
        rw [h1]
        simp [MockRepo.create, createdArgs, List.filterMap_cons]
        omega
      · show (MockRepo.applyOps (m.create k v) rest).create_call_args = _
        rw [h2]
        simp [MockRepo.create, createdArgs, List.filterMap_cons]
      · show (MockRepo.applyOps (m.create k v) rest).read_call_count = _
        rw [h3]
        simp [MockRepo.create, readKeys, List.filterMap_cons]
      · show (MockRepo.applyOps (m.create k v) rest).read_call_args = _
        rw [h4]
        simp [MockRepo.create, readKeys, List.filterMap_cons]
    | read k =>
      obtain ⟨h1, h2, h3, h4⟩ := ih (m.read k).1
      refine ⟨?_, ?_, ?_, ?_⟩
      · show (MockRepo.applyOps (m.read k).1 rest).create_call_count = _
        rw [h1]
        simp [MockRepo.read, createdArgs, List.filterMap_cons]
      · show (MockRepo.applyOps (m.read k).1 rest).create_call_args = _
        rw [h2]
        simp [MockRepo.read, createdArgs, List.filterMap_cons]
      · show (MockRepo.applyOps (m.read k).1 rest).read_call_count = _
        rw [h3]
        simp [MockRepo.read, readKeys, List.filterMap_cons]
        omega
      · show (MockRepo.applyOps (m.read k).1 rest).read_call_args = _
        rw [h4]
        simp [MockRepo.read, readKeys, List.filterMap_cons]

/-- C6: after any sequence of calls, the mock's recorded `create` count and
arguments, and `read` count and arguments, equal exactly the calls made, in
order. -/
theorem C6_mock_records_all_calls (ops : List RepoOp) :
    (MockRepo.empty.applyOps ops).create_call_count =
      (createdArgs ops).length ∧
    (MockRepo.empty.applyOps ops).create_call_args = createdArgs ops ∧
    (MockRepo.empty.applyOps ops).read_call_count =
      (readKeys ops).length ∧
    (MockRepo.empty.applyOps ops).read_call_args = readKeys ops := by
  have h := mock_applyOps_fields ops MockRepo.empty
  simpa [MockRepo.empty] using h

/-- C7: for the stateful stores, `read(k)` fails with a lookup error iff no
`create` has been performed for key `k` on that instance; the dummy and
stub variants never raise a lookup error. -/
theorem C7_keyError_iff_never_created (creates : List (String × String))
    (k : String) :
    (((CloudRepository.empty.applyCreates creates).read k).isKeyError =
      true ↔ k ∉ creates.map Prod.fst) ∧
    (((FakeRepo.empty.applyCreates creates).read k).isKeyError = true ↔
      k ∉ creates.map Prod.fst) ∧
    (∀ (s : DummyRepo) (k2 : String), (s.read k2).isKeyError = false) ∧
    (∀ (s : StubRepo) (k2 : String), (s.read k2).isKeyError = false) := by
  refine ⟨?_, ?_, fun _ _ => rfl, fun _ _ => rfl⟩
  · rw [cloud_read_keyError_iff, lastCreatedValue_eq_none_iff]
  · rw [fake_read_keyError_iff, lastCreatedValue_eq_none_iff]

/-! ## Embedding of the pytest session hook (src/tests/conftest.py)

The hook body rewrites exit status 5 ("no tests collected") to 0.  The
source registers it under the name `pytest_sessionstart`, which the test
runner invokes before collection and the run-test loop; the runner
initializes `session.exitstatus` to 0 (success) before that call and
assigns the real completion status only after the run. -/

/-- Session state visible to the hook: its `exitstatus` attribute. -/
structure Session where
  exitstatus : Int
  deriving DecidableEq, Repr

/-- Embedding of `pytest_sessionstart` (src/tests/conftest.py lines 1-4):
if the session exit status is 5, set it to 0. -/
def pytest_sessionstart (session : Session) : Session :=
  if session.exitstatus = 5 then { session with exitstatus := 0 }
  else session

/-- The test runner's exit code for "no tests collected". -/
def EXIT_NO_TESTS_COLLECTED : Int := 5

/-- Model of the external test runner's documented session lifecycle
(pytest `wrap_session`): the session is created with exit status 0, the
session-start hook is invoked before the run, and the completion status
produced by the run is assigned afterwards; the value returned is the
session's overall exit status. -/
def pytestSessionExitStatus (startHook : Session → Session)
    (runStatus : Int) : Int :=
  let created : Session := { exitstatus := 0 }
  let afterHook := startHook created
  let finished : Session := { afterHook with exitstatus := runStatus }
  finished.exitstatus

/-- C8 (code bug): the hook body does rewrite status 5 to 0 and leaves any
other status alone, but the source registers it as a session-START hook, so
in the runner's lifecycle a session that completes with the "no tests
collected" status 5 still exits with 5 — the completion signal is never
rewritten. -/
theorem C8_sessionstart_hook_misses_completion_status :
    pytestSessionExitStatus pytest_sessionstart EXIT_NO_TESTS_COLLECTED =
      EXIT_NO_TESTS_COLLECTED ∧
    pytest_sessionstart { exitstatus := 5 } = { exitstatus := 0 } ∧
    pytest_sessionstart { exitstatus := 0 } = { exitstatus := 0 } ∧
    pytest_sessionstart { exitstatus := 1 } = { exitstatus := 1 } := by
  refine ⟨rfl, ?_, ?_, ?_⟩ <;> decide

/-! ## Embedding of the update task (src/tasks.py)

`update_vscode` reads the password from the secrets mapping (parsed from
`secrets.yaml` by `_read_secrets`; here the already-parsed mapping is the
input), then issues four external commands in sequence through the task
runner.  The runner raises on any non-zero exit, which aborts the rest of
the task; this is modeled by an exit-code oracle for the external
processes. -/

/-- An external command issued by the task: `run` in a working directory,
or `sudo` additionally supplying the password. -/
inductive Command where
  | run (cwd : String) (cmd : String)
  | sudo (cwd : String) (cmd : String) (password : String)
  deriving DecidableEq, Repr

/-- Failure of the update task: the password key is absent from the
secrets mapping (`KeyError`), or an external command exited non-zero
(invoke `UnexpectedExit`, carrying the failed command and its exit code
unmodified). -/
inductive UpdateError where
  | missingPassword
  | unexpectedExit (cmd : Command) (exitCode : Nat)
  deriving DecidableEq, Repr

def repo_path : String := "visual-studio-code-insiders-bin"

def cmd_clone_repo : String :=
  "git clone https://aur.archlinux.org/visual-studio-code-insiders-bin.git"

def cmd_makepkg : String := "echo \x27Y\x27 | makepkg -si"

def cmd_pacman_install : String := "pacman -U"

def cmd_remove_repo : String := "rm -rf ./visual-studio-code-insiders-bin"

/-- The four commands of `update_vscode` (src/tasks.py lines 15-23), in
source order: clone, build inside the cloned directory with auto-confirmed
prompts, privileged install with the password, privileged removal of the
cloned directory. -/
def updateCommands (password : String) : List Command :=
  [.run "." cmd_clone_repo,
   .run repo_path cmd_makepkg,
   .sudo repo_path cmd_pacman_install password,
   .sudo "." cmd_remove_repo password]

/-- Issue commands in sequence against an exit-code oracle: each command
runs at most once; the first non-zero exit aborts the remaining commands
and surfaces that command's exit code unmodified.  Returns the commands
actually executed, in order, with the error if any. -/
def runCommands (exec : Command → Nat) :
    List Command → List Command × Option UpdateError
  | [] => ([], none)
  | c :: rest =>
    if exec c = 0 then
      let result := runCommands exec rest
      (c :: result.1, result.2)
    else
      ([c], some (.unexpectedExit c (exec c)))

/-- Embedding of `update_vscode` (src/tasks.py lines 11-23): look up the
password in the secrets mapping first, then issue the four commands. -/
def update_vscode (secrets : List (String × String))
    (exec : Command → Nat) : List Command × Option UpdateError :=
  match dictLookup secrets "password" with
  | none => ([], some .missingPassword)
  | some password => runCommands exec (updateCommands password)

/-! ### Lemmas about `runCommands` -/

theorem runCommands_all_zero (exec : Command → Nat) (l : List Command)
    (h : ∀ c ∈ l, exec c = 0) : runCommands exec l = (l, none) := by
  induction l with
  | nil => rfl
  | cons c rest ih =>
    unfold runCommands
    rw [if_pos (h c (List.mem_cons_self c rest))]
    rw [ih (fun d hd => h d (List.mem_cons_of_mem c hd))]

theorem runCommands_abort (exec : Command → Nat) (c : Command)
    (rest : List Command) (hc : exec c ≠ 0) :
    ∀ done : List Command, (∀ d ∈ done, exec d = 0) →
      runCommands exec (done ++ c :: rest) =
        (done ++ [c], some (.unexpectedExit c (exec c))) := by
  intro done
  induction done with
  | nil =>
    intro _
    rw [List.nil_append, List.nil_append]
    unfold runCommands
    rw [if_neg hc]
  | cons d ds ih =>
    intro h
    have hd : exec d = 0 := h d (List.mem_cons_self d ds)
    show runCommands exec (d :: (ds ++ c :: rest)) = _
    unfold runCommands
    rw [if_pos hd, ih (fun e he => h e (List.mem_cons_of_mem d he))]
    rfl

/-- C9: `update_vscode` retrieves the password before issuing any command
(a missing password key runs nothing), then issues exactly the four
commands in strict sequence when all succeed, and on the first non-zero
exit it stops (commands before it succeeded, the failing command ran once,
none after it ran — no retry, no rollback) surfacing the failing command's
exit code unmodified. -/
theorem C9_update_vscode_strict_sequence (secrets : List (String × String))
    (exec : Command → Nat) :
    (dictLookup secrets "password" = none →
      update_vscode secrets exec = ([], some .missingPassword)) ∧
    (∀ pw, dictLookup secrets "password" = some pw →
      (updateCommands pw).length = 4 ∧
      ((∀ c ∈ updateCommands pw, exec c = 0) →
        update_vscode secrets exec = (updateCommands pw, none)) ∧
      (∀ (done : List Command) (c : Command) (rest : List Command),
        updateCommands pw = done ++ c :: rest →
        (∀ d ∈ done, exec d = 0) → exec c ≠ 0 →
        update_vscode secrets exec =
          (done ++ [c], some (.unexpectedExit c (exec c))))) := by
  constructor
  · intro h
    unfold update_vscode
    rw [h]
  · intro pw hpw
    refine ⟨rfl, ?_, ?_⟩
    · intro hall
      unfold update_vscode
      rw [hpw]
      exact runCommands_all_zero exec (updateCommands pw) hall
    · intro done c rest hsplit hdone hc
      unfold update_vscode
      rw [hpw]
      show runCommands exec (updateCommands pw) = _
      rw [hsplit]
      exact runCommands_abort exec c rest hc done hdone

/-- The exit-code oracle used by the C9 witness: the build step
(`makepkg` inside the cloned directory) fails with exit code 4, every
other command succeeds. -/
def execFailsBuild : Command → Nat :=
  fun c => if c = .run repo_path cmd_makepkg then 4 else 0

/-- Witness for C9: with the password present and the build step failing,
exactly the clone and the failing build ran, and the build's exit code 4 is
surfaced unmodified. -/
theorem C9_witness :
    dictLookup [("password", "hunter2")] "password" = some "hunter2" ∧
    update_vscode [("password", "hunter2")] execFailsBuild =
      ([.run "." cmd_clone_repo, .run repo_path cmd_makepkg],
        some (.unexpectedExit (.run repo_path cmd_makepkg) 4)) := by
  refine ⟨by decide, ?_⟩
  have h := ((C9_update_vscode_strict_sequence [("password", "hunter2")]
    execFailsBuild).2 "hunter2" (by decide)).2.2
    [.run "." cmd_clone_repo] (.run repo_path cmd_makepkg)
    [.sudo repo_path cmd_pacman_install "hunter2",
     .sudo "." cmd_remove_repo "hunter2"]
    rfl (by decide) (by decide)
  simpa [execFailsBuild] using h
